import Mathlib

/-!
Verification of the Gary accounting bot (src/main.py) against its
specification.  The embedding models Python strings as lists of characters
(the bot only handles ASCII text), Python float amounts as exact rationals,
and the in-memory dict of pending confirmations as an association list.
External collaborators (the Google Sheets gateway and Twilio transport) are
modelled as parameters: the persistence gateway is a function from the record
to a success flag.
-/

namespace GaryBot

/-! ### Python string primitives -/

/-- Python whitespace test: space, tab, newline, carriage return, vertical
tab, form feed. -/
def pyIsSpace (c : Char) : Bool :=
  c.toNat = 32 || c.toNat = 9 || c.toNat = 10 || c.toNat = 13 ||
  c.toNat = 11 || c.toNat = 12

/-- ASCII model of Python str.lower on one character: uppercase letters map
to the corresponding lowercase letter, all other characters are unchanged. -/
def pyToLower (c : Char) : Char :=
  if 65 ≤ c.toNat && c.toNat ≤ 90 then Char.ofNat (c.toNat + 32) else c

/-- Python str.lower (ASCII model). -/
def pyLower (l : List Char) : List Char := l.map pyToLower

/-- Python str.strip(): remove leading and trailing whitespace. -/
def pyStrip (l : List Char) : List Char :=
  (l.dropWhile pyIsSpace).rdropWhile pyIsSpace

/-- Auxiliary for pySplit; acc is the current word, reversed. -/
def pySplitAux : List Char → List Char → List (List Char)
  | [], acc => if acc.isEmpty then [] else [acc.reverse]
  | c :: rest, acc =>
    if pyIsSpace c then
      if acc.isEmpty then pySplitAux rest [] else acc.reverse :: pySplitAux rest []
    else pySplitAux rest (c :: acc)

/-- Python str.split() with no argument: split on whitespace runs, no empty
parts. -/
def pySplit (l : List Char) : List (List Char) := pySplitAux l []

/-- Python str.split(sep) for a one-character separator; may produce empty
parts. -/
def splitOnChar (sep : Char) : List Char → List (List Char)
  | [] => [[]]
  | c :: rest =>
    let r := splitOnChar sep rest
    if c = sep then [] :: r
    else
      match r with
      | [] => [[c]]
      | h :: t => (c :: h) :: t

/-- Python int(...) on a decimal-digit string; none models a ValueError.
The strings this bot feeds to int() are always plain digit runs captured by
the time regex, so signs and surrounding whitespace never occur. -/
def natOfDigits (l : List Char) : Option Nat :=
  if l.isEmpty then none
  else if l.all (fun c => c.isDigit) then
    some (l.foldl (fun a c => 10 * a + (c.toNat - 48)) 0)
  else none

/-- Python substring containment (the in operator on str): the needle is a
prefix of some suffix of the haystack. -/
def containsSub (needle : List Char) : List Char → Bool
  | [] => needle.isEmpty
  | c :: rest => needle.isPrefixOf (c :: rest) || containsSub needle rest

/-! ### Configuration constants (GaryBot.__init__, lines 22-25) -/

def DAILY_RATE : ℚ := 320.11

def OVERTIME_RATE : ℚ := 61.56

def GARY_PHONE : String := "+447827491339"

def ADMIN_PHONE : String := "+447831971523"

/-! ### Time handling -/

/-- is_valid_24hour_time (lines 291-303): split on the colon, require exactly
two parts, convert both with int, check hour in [0,23] and minute in [0,59];
any conversion failure yields False. -/
def is_valid_24hour_time (t : List Char) : Bool :=
  match splitOnChar ':' t with
  | [hs, ms] =>
    match natOfDigits hs, natOfDigits ms with
    | some hour, some minute => decide (hour ≤ 23) && decide (minute ≤ 59)
    | _, _ => false
  | _ => false

/-- The split-on-colon-and-int conversion HH:MM to minutes that
calculate_hours_between applies to each operand (lines 307-311) and that the
overtime computation applies to the end time (lines 267-271).  none models a
raised ValueError (never reached on validated times). -/
def timeToMinutes (t : List Char) : Option Int :=
  match splitOnChar ':' t with
  | [hs, ms] =>
    match natOfDigits hs, natOfDigits ms with
    | some hour, some minute => some ((hour : Int) * 60 + minute)
    | _, _ => none
  | _ => none

/-- calculate_hours_between (lines 305-317): minutes of each time, add 24h to
the end when it is before the start, difference in hours. -/
def calculate_hours_between (start_time end_time : List Char) : Option ℚ :=
  match timeToMinutes start_time, timeToMinutes end_time with
  | some s, some e =>
    let e2 := if e < s then e + 24 * 60 else e
    some (((e2 - s : ℤ) : ℚ) / 60)
  | _, _ => none

/-! ### The time-range regex (line 250)

re.search of (\d{1,2}:\d{2})\s*(?:till?|to|until|-)\s*(\d{1,2}:\d{2}):
leftmost starting position wins; at a given position the greedy {1,2}
quantifiers try two digits before one, and the alternation tries till, til,
to, until, - in that order.  The \s* gaps are equivalent to dropping a
whitespace run because whitespace is disjoint from every character that can
follow the gap. -/

/-- Two-digit-hour time capture \d\d:\d\d at the head of the input; returns
the capture and the remaining input. -/
def matchTime2 : List Char → Option (List Char × List Char)
  | d1 :: d2 :: c :: m1 :: m2 :: rest =>
    if d1.isDigit && d2.isDigit && c == ':' && m1.isDigit && m2.isDigit then
      some ([d1, d2, c, m1, m2], rest)
    else none
  | _ => none

/-- One-digit-hour time capture \d:\d\d at the head of the input. -/
def matchTime1 : List Char → Option (List Char × List Char)
  | d1 :: c :: m1 :: m2 :: rest =>
    if d1.isDigit && c == ':' && m1.isDigit && m2.isDigit then
      some ([d1, c, m1, m2], rest)
    else none
  | _ => none

/-- One alternative of the connector followed by the whitespace gap and the
second time capture (greedy two-digit hour first). -/
def tryConnector (t1 r1 conn : List Char) : Option (List Char × List Char) :=
  if conn.isPrefixOf r1 then
    let r2 := (r1.drop conn.length).dropWhile pyIsSpace
    match matchTime2 r2 <|> matchTime1 r2 with
    | some (t2, _) => some (t1, t2)
    | none => none
  else none

/-- After the first capture: the whitespace gap, then the connector
alternatives in regex order. -/
def matchAfterFirst (t1 r : List Char) : Option (List Char × List Char) :=
  let r1 := r.dropWhile pyIsSpace
  tryConnector t1 r1 ("till".toList) <|>
  tryConnector t1 r1 ("til".toList) <|>
  tryConnector t1 r1 ("to".toList) <|>
  tryConnector t1 r1 ("until".toList) <|>
  tryConnector t1 r1 ("-".toList)

/-- Attempt the whole pattern at one position: two-digit first capture, and
on failure of the remainder backtrack to the one-digit first capture. -/
def matchRangeAt (l : List Char) : Option (List Char × List Char) :=
  (match matchTime2 l with
   | some (t1, r) => matchAfterFirst t1 r
   | none => none) <|>
  (match matchTime1 l with
   | some (t1, r) => matchAfterFirst t1 r
   | none => none)

/-- re.search: try every start position from the left, first hit wins. -/
def searchTimeRange : List Char → Option (List Char × List Char)
  | [] => none
  | c :: rest =>
    match matchRangeAt (c :: rest) with
    | some r => some r
    | none => searchTimeRange rest

/-! ### The parsed shift record -/

inductive ShiftType
  | weekday
  | weekend
deriving DecidableEq

/-- The dict returned by a successful parse_time_message (lines 223-232,
238-247, 280-289).  The date field carries the processing-date string
(datetime.now), threaded as a parameter of the parser. -/
structure ShiftRecord where
  type : ShiftType
  start_time : List Char
  end_time : List Char
  total_hours : ℚ
  paid_hours : ℚ
  overtime_hours : ℚ
  total_pay : ℚ
  date : List Char
deriving DecidableEq

/-- The branch condition of line 222. -/
def containsNormalDay (m : List Char) : Bool :=
  containsSub "normal".toList m || containsSub "standard".toList m

/-- The branch condition of line 235. -/
def containsWeekendDay (m : List Char) : Bool :=
  containsSub "saturday".toList m || containsSub "sunday".toList m ||
  containsSub "weekend".toList m

/-- Result of parse_time_message: a parsed record, or the error marker dict
(its message field distinguishes the two error returns and the unreachable
conversion failure). -/
inductive ParseResult
  | ok (record : ShiftRecord)
  | error (msg : String)
deriving DecidableEq

/-- parse_time_message (lines 218-289).  The final fallthrough models the
ValueError a failed int() would raise; it is unreachable because both
captures have just passed is_valid_24hour_time. -/
def parse_time_message (today m : List Char) : ParseResult :=
  if containsNormalDay m then
    .ok { type := .weekday, start_time := "07:30".toList, end_time := "16:00".toList,
          total_hours := 8.5, paid_hours := 7.5, overtime_hours := 0,
          total_pay := DAILY_RATE, date := today }
  else if containsWeekendDay m then
    .ok { type := .weekend, start_time := "08:00".toList, end_time := "13:00".toList,
          total_hours := 5, paid_hours := 5, overtime_hours := 0,
          total_pay := DAILY_RATE, date := today }
  else
    match searchTimeRange m with
    | none => .error "Could not parse time format"
    | some (start_time, end_time) =>
      if !is_valid_24hour_time start_time || !is_valid_24hour_time end_time then
        .error "Invalid time format"
      else
        match calculate_hours_between start_time end_time, timeToMinutes end_time with
        | some total_hours, some actual_end_minutes =>
          let paid_hours := if total_hours > 6 then total_hours - 1 else total_hours
          let overtime_hours : ℚ :=
            if actual_end_minutes > 16 * 60 then
              ((actual_end_minutes - 16 * 60 : ℤ) : ℚ) / 60
            else 0
          .ok { type := .weekday, start_time := start_time, end_time := end_time,
                total_hours := total_hours, paid_hours := paid_hours,
                overtime_hours := overtime_hours,
                total_pay := DAILY_RATE + overtime_hours * OVERTIME_RATE,
                date := today }
        | _, _ => .error "ValueError"

/-! ### Conversation controller state -/

/-- One entry of self.pending_confirmations (lines 209-213); kind is the
dict field named type, always the literal time_entry when stored. -/
structure PendingEntry where
  kind : List Char
  data : ShiftRecord
  original_message : List Char
deriving DecidableEq

/-- The in-memory dict self.pending_confirmations, keyed by phone number,
modelled as an association list. -/
abbrev ConfStore := List (String × PendingEntry)

def storeGet : ConfStore → String → Option PendingEntry
  | [], _ => none
  | (k, v) :: rest, key => if k = key then some v else storeGet rest key

/-- Python del store[key]. -/
def storeErase (key : String) : ConfStore → ConfStore
  | [] => []
  | (k, v) :: rest =>
    if k = key then storeErase key rest else (k, v) :: storeErase key rest

/-- Python store[key] = v (overwrite). -/
def storeSet (key : String) (v : PendingEntry) (store : ConfStore) : ConfStore :=
  (key, v) :: storeErase key store

/-- Reply texts, one constructor per distinct message the bot builds; the
arguments carry the values interpolated into the text. -/
inductive Reply
  | notAuthorized
  | usageHint
  | helpMsg (adminHint : Bool)
  | timeFormatHelp
  | confirmPrompt (data : ShiftRecord)
  | noPending
  | cancelled
  | loggedOvertime (hours : ℚ)
  | loggedWeekend
  | loggedNormal
  | logFailed
  | unknownConfirmationKind
  | adminHelp
  | adminStatus (pendingCount : ℕ)
  | adminStats
  | adminTest
  | adminCleared
  | adminLast
  | adminUnknown
deriving DecidableEq

/-- Result of one controller step: the reply, the updated confirmation
store, and two instrumentation flags recording whether parse_time_message
and the persistence gateway (log_time_entry) were invoked. -/
structure ProcResult where
  reply : Reply
  store : ConfStore
  parserInvoked : Bool
  gatewayCalled : Bool
deriving DecidableEq

/-- is_authorized (lines 99-101). -/
def is_authorized (phone : String) : Bool :=
  phone == GARY_PHONE || phone == ADMIN_PHONE

/-- is_admin (lines 103-105). -/
def is_admin (phone : String) : Bool := phone == ADMIN_PHONE

/-- is_time_message (lines 189-192): substring match over the keyword list. -/
def is_time_message (m : List Char) : Bool :=
  ["worked", "work", "till", "until", "to", ":", "normal", "day",
   "saturday", "sunday"].any (fun k => containsSub k.toList m)

/-- handle_time_request (lines 194-216): parse; on error return the format
help, otherwise store the pending confirmation (overwriting any previous one
for this sender) and return the confirmation prompt. -/
def handle_time_request (today m : List Char) (from_number : String)
    (store : ConfStore) : ProcResult :=
  match parse_time_message today m with
  | .error _ => ⟨.timeFormatHelp, store, true, false⟩
  | .ok data =>
    ⟨.confirmPrompt data,
     storeSet from_number ⟨"time_entry".toList, data, m⟩ store, true, false⟩

/-- handle_confirmation (lines 349-378); gw models log_time_entry, the
persistence gateway, returning its success flag. -/
def handle_confirmation (gw : ShiftRecord → Bool) (from_number : String)
    (confirmed : Bool) (store : ConfStore) : ProcResult :=
  match storeGet store from_number with
  | none => ⟨.noPending, store, false, false⟩
  | some pending =>
    if !confirmed then
      ⟨.cancelled, storeErase from_number store, false, false⟩
    else if pending.kind = "time_entry".toList then
      let result := gw pending.data
      let store2 := storeErase from_number store
      if result then
        if pending.data.overtime_hours > 0 then
          ⟨.loggedOvertime pending.data.overtime_hours, store2, false, true⟩
        else if pending.data.type = ShiftType.weekend then
          ⟨.loggedWeekend, store2, false, true⟩
        else ⟨.loggedNormal, store2, false, true⟩
      else ⟨.logFailed, store2, false, true⟩
    else ⟨.unknownConfirmationKind, store, false, false⟩

/-- handle_admin_command (lines 137-187).  Sheet reads are external, so the
stats and last replies are opaque constructors; clear wipes the whole store.
The [] case is unreachable because the caller checked that the message
starts with admin. -/
def handle_admin_command (m : List Char) (_from_number : String)
    (store : ConfStore) : ProcResult :=
  match pySplit m with
  | [] => ⟨.adminUnknown, store, false, false⟩
  | [_] => ⟨.adminHelp, store, false, false⟩
  | _ :: sub :: _ =>
    if sub = "help".toList then ⟨.adminHelp, store, false, false⟩
    else if sub = "status".toList then ⟨.adminStatus store.length, store, false, false⟩
    else if sub = "stats".toList then ⟨.adminStats, store, false, false⟩
    else if sub = "test".toList then ⟨.adminTest, store, false, false⟩
    else if sub = "clear".toList then ⟨.adminCleared, [], false, false⟩
    else if sub = "last".toList then ⟨.adminLast, store, false, false⟩
    else ⟨.adminUnknown, store, false, false⟩

/-- The routing of process_message on the already-normalized message
(lines 116-135). -/
def route_message (gw : ShiftRecord → Bool) (today m : List Char)
    (from_number : String) (store : ConfStore) : ProcResult :=
  if is_admin from_number && "admin".toList.isPrefixOf m then
    handle_admin_command m from_number store
  else if m = "yes".toList ∨ m = "y".toList ∨ m = "confirm".toList ∨ m = "ok".toList then
    handle_confirmation gw from_number true store
  else if m = "no".toList ∨ m = "n".toList ∨ m = "cancel".toList then
    handle_confirmation gw from_number false store
  else if is_time_message m then
    handle_time_request today m from_number store
  else if m = "help".toList ∨ m = "status".toList then
    ⟨.helpMsg (is_admin from_number), store, false, false⟩
  else ⟨.usageHint, store, false, false⟩

/-- process_message (lines 107-135): authorization check on the raw sender,
then message.lower().strip(), then routing. -/
def process_message (gw : ShiftRecord → Bool) (today m : List Char)
    (from_number : String) (store : ConfStore) : ProcResult :=
  if !is_authorized from_number then ⟨.notAuthorized, store, false, false⟩
  else route_message gw today (pyStrip (pyLower m)) from_number store

/-! ### Supporting lemmas -/

theorem valid_timeToMinutes (t : List Char) (h : is_valid_24hour_time t = true) :
    ∃ k : ℤ, timeToMinutes t = some k ∧ 0 ≤ k ∧ k ≤ 1439 := by
  unfold is_valid_24hour_time at h
  unfold timeToMinutes
  split at h
  case _ hs ms heq =>
    split at h
    case _ hour minute h1 h2 =>
      refine ⟨(hour : ℤ) * 60 + minute, rfl, ?_, ?_⟩
      · positivity
      · simp only [Bool.and_eq_true, decide_eq_true_eq] at h
        obtain ⟨hh, hm⟩ := h
        omega
    case _ => exact absurd h (by simp)
  case _ => exact absurd h (by simp)

theorem calculate_hours_some (st et : List Char) (s e : ℤ)
    (h1 : timeToMinutes st = some s) (h2 : timeToMinutes et = some e) :
    calculate_hours_between st et =
      some ((((if e < s then e + 24 * 60 else e) - s : ℤ) : ℚ) / 60) := by
  unfold calculate_hours_between
  rw [h1, h2]


/-- Inversion of the time-range branch of parse_time_message. -/
theorem parse_ok_inv (today m : List Char) (r : ShiftRecord)
    (hn : containsNormalDay m = false) (hw : containsWeekendDay m = false)
    (h : parse_time_message today m = .ok r) :
    ∃ st et, ∃ s e : ℤ,
      searchTimeRange m = some (st, et) ∧
      is_valid_24hour_time st = true ∧ is_valid_24hour_time et = true ∧
      timeToMinutes st = some s ∧ timeToMinutes et = some e ∧
      0 ≤ s ∧ s ≤ 1439 ∧ 0 ≤ e ∧ e ≤ 1439 ∧
      r = { type := .weekday, start_time := st, end_time := et,
            total_hours := (((if e < s then e + 24 * 60 else e) - s : ℤ) : ℚ) / 60,
            paid_hours :=
              if ((((if e < s then e + 24 * 60 else e) - s : ℤ) : ℚ) / 60) > 6 then
                (((if e < s then e + 24 * 60 else e) - s : ℤ) : ℚ) / 60 - 1
              else (((if e < s then e + 24 * 60 else e) - s : ℤ) : ℚ) / 60,
            overtime_hours := if e > 16 * 60 then ((e - 16 * 60 : ℤ) : ℚ) / 60 else 0,
            total_pay := DAILY_RATE +
              (if e > 16 * 60 then ((e - 16 * 60 : ℤ) : ℚ) / 60 else 0) * OVERTIME_RATE,
            date := today } := by
  unfold parse_time_message at h
  simp only [hn, hw, Bool.false_eq_true, if_false] at h
  split at h
  case _ => exact ParseResult.noConfusion h
  case _ st et heq =>
    split at h
    case _ => exact ParseResult.noConfusion h
    case _ hv =>
      simp only [Bool.or_eq_true, Bool.not_eq_true', not_or, Bool.not_eq_false] at hv
      obtain ⟨hv1, hv2⟩ := hv
      obtain ⟨s, hts, hs0, hs1⟩ := valid_timeToMinutes st hv1
      obtain ⟨e, hte, he0, he1⟩ := valid_timeToMinutes et hv2
      have hcalc := calculate_hours_some st et s e hts hte
      split at h
      case _ th aem hc ht =>
        rw [hcalc] at hc
        rw [hte] at ht
        injection hc with hc
        injection ht with ht
        refine ⟨st, et, s, e, heq, hv1, hv2, hts, hte, hs0, hs1, he0, he1, ?_⟩
        injection h with h
        subst hc ht
        exact h.symm
      case _ hno =>
        exact (hno _ e hcalc hte).elim


/-- Forward evaluation of the time-range branch of parse_time_message. -/
theorem parse_timeRange_eq (today m st et : List Char) (s e : ℤ)
    (hn : containsNormalDay m = false) (hw : containsWeekendDay m = false)
    (hs : searchTimeRange m = some (st, et))
    (hv1 : is_valid_24hour_time st = true) (hv2 : is_valid_24hour_time et = true)
    (ht1 : timeToMinutes st = some s) (ht2 : timeToMinutes et = some e) :
    parse_time_message today m =
      .ok { type := .weekday, start_time := st, end_time := et,
            total_hours := (((if e < s then e + 24 * 60 else e) - s : ℤ) : ℚ) / 60,
            paid_hours :=
              if ((((if e < s then e + 24 * 60 else e) - s : ℤ) : ℚ) / 60) > 6 then
                (((if e < s then e + 24 * 60 else e) - s : ℤ) : ℚ) / 60 - 1
              else (((if e < s then e + 24 * 60 else e) - s : ℤ) : ℚ) / 60,
            overtime_hours := if e > 16 * 60 then ((e - 16 * 60 : ℤ) : ℚ) / 60 else 0,
            total_pay := DAILY_RATE +
              (if e > 16 * 60 then ((e - 16 * 60 : ℤ) : ℚ) / 60 else 0) * OVERTIME_RATE,
            date := today } := by
  unfold parse_time_message
  simp only [hn, hw, Bool.false_eq_true, if_false, hs]
  rw [calculate_hours_some st et s e ht1 ht2, ht2]
  simp [hv1, hv2]

/-- C1: time-range records satisfy the exact pay identity with the stated
rate constants, and the example utterance parses to the stated figures. -/
theorem C1_weekday_pay_identity :
    DAILY_RATE = 320.11 ∧ OVERTIME_RATE = 61.56 ∧
    (∀ today m r, containsNormalDay m = false → containsWeekendDay m = false →
      parse_time_message today m = .ok r →
      r.total_pay = DAILY_RATE + r.overtime_hours * OVERTIME_RATE) ∧
    (∀ today, parse_time_message today "worked 7:30 till 17:00".toList =
      .ok { type := .weekday, start_time := "7:30".toList, end_time := "17:00".toList,
            total_hours := 9.5, paid_hours := 8.5, overtime_hours := 1,
            total_pay := 381.67, date := today }) := by
  refine ⟨rfl, rfl, ?_, ?_⟩
  · intro today m r hn hw h
    obtain ⟨st, et, s, e, -, -, -, -, -, -, -, -, -, hr⟩ := parse_ok_inv today m r hn hw h
    subst hr
    rfl
  · intro today
    rw [parse_timeRange_eq today _ "7:30".toList "17:00".toList 450 1020
      (by decide) (by decide) (by decide) (by decide) (by decide) (by decide) (by decide)]
    norm_num [DAILY_RATE, OVERTIME_RATE]



/-- C2: hours between two valid times, over every textual representation. -/
theorem C2_hours_between (st et : List Char) (sh sm eh em : ℕ)
    (_hsh : sh ≤ 23) (_hsm : sm ≤ 59) (_heh : eh ≤ 23) (_hem : em ≤ 59)
    (h1 : timeToMinutes st = some ((sh : ℤ) * 60 + sm))
    (h2 : timeToMinutes et = some ((eh : ℤ) * 60 + em)) :
    calculate_hours_between st et =
      some (if sh * 60 + sm ≤ eh * 60 + em then
              ((eh * 60 + em : ℚ) - (sh * 60 + sm : ℚ)) / 60
            else ((eh * 60 + em : ℚ) + 24 * 60 - (sh * 60 + sm : ℚ)) / 60) := by
  rw [calculate_hours_some st et _ _ h1 h2]
  congr 1
  rcases le_or_lt ((sh : ℤ) * 60 + sm) ((eh : ℤ) * 60 + em) with hle | hlt
  · rw [if_neg (by omega), if_pos (by omega)]
    push_cast
    ring
  · rw [if_pos (by omega), if_neg (by omega)]
    push_cast
    ring

def c3cex_record : ShiftRecord :=
  { type := .weekday, start_time := "7:30".toList, end_time := "7:30".toList,
    total_hours := 0, paid_hours := 0, overtime_hours := 0,
    total_pay := 320.11, date := "2026-10-12".toList }

/-- C3 as stated is false: a zero-length shift parses successfully with
total_hours = 0, violating the invariant total_hours > 0. -/
theorem C3_counterexample :
    parse_time_message "2026-10-12".toList "worked 7:30 till 7:30".toList =
      .ok c3cex_record ∧ ¬ (0 < c3cex_record.total_hours) := by
  constructor
  · rw [parse_timeRange_eq _ _ "7:30".toList "7:30".toList 450 450
      (by decide) (by decide) (by decide) (by decide) (by decide) (by decide) (by decide)]
    norm_num [c3cex_record, DAILY_RATE, OVERTIME_RATE]
  · norm_num [c3cex_record]

/-- C3 amended: every successful parse satisfies overtime_hours ≥ 0,
total_hours ≥ 0 (zero is reached exactly by start = end in the time-range
branch) and paid_hours ≤ total_hours. -/
theorem C3_invariants_amended (today m : List Char) (r : ShiftRecord)
    (h : parse_time_message today m = .ok r) :
    0 ≤ r.overtime_hours ∧ 0 ≤ r.total_hours ∧ r.paid_hours ≤ r.total_hours := by
  cases hn : containsNormalDay m with
  | true =>
    unfold parse_time_message at h
    simp only [hn, if_true] at h
    cases h
    norm_num
  | false =>
  cases hw : containsWeekendDay m with
  | true =>
    unfold parse_time_message at h
    simp only [hn, hw, Bool.false_eq_true, if_false, if_true] at h
    cases h
    norm_num
  | false =>
    obtain ⟨st, et, s, e, -, -, -, -, -, hs0, hs1, he0, he1, hr⟩ :=
      parse_ok_inv today m r hn hw h
    subst hr
    refine ⟨?_, ?_, ?_⟩
    · dsimp only
      split
      case _ hgt =>
        apply div_nonneg _ (by norm_num)
        exact_mod_cast Int.sub_nonneg.mpr (by omega)
      case _ => exact le_refl 0
    · dsimp only
      apply div_nonneg _ (by norm_num)
      split
      case _ => exact_mod_cast Int.sub_nonneg.mpr (by omega)
      case _ => exact_mod_cast Int.sub_nonneg.mpr (by omega)
    · dsimp only
      generalize (((if e < s then e + 24 * 60 else e) - s : ℤ) : ℚ) / 60 = th
      split
      case _ => linarith
      case _ => exact le_refl _

/-- C4: the normal/standard token wins over everything, and otherwise a
weekend token forces the fixed weekend record. -/
theorem C4_branch_priority :
    (∀ today m, containsNormalDay m = true →
      parse_time_message today m =
        .ok { type := .weekday, start_time := "07:30".toList, end_time := "16:00".toList,
              total_hours := 8.5, paid_hours := 7.5, overtime_hours := 0,
              total_pay := DAILY_RATE, date := today }) ∧
    (∀ today m, containsNormalDay m = false → containsWeekendDay m = true →
      parse_time_message today m =
        .ok { type := .weekend, start_time := "08:00".toList, end_time := "13:00".toList,
              total_hours := 5, paid_hours := 5, overtime_hours := 0,
              total_pay := DAILY_RATE, date := today }) := by
  constructor
  · intro today m hn
    unfold parse_time_message
    rw [hn]
    simp
  · intro today m hn hw
    unfold parse_time_message
    rw [hn, hw]
    simp

/-- C6: overtime is max(0, (end_minutes - 960)/60), computed from the end
time only; the short late shift in the example still gets one overtime hour. -/
theorem C6_overtime_end_only :
    (∀ today m r st et e, containsNormalDay m = false → containsWeekendDay m = false →
      searchTimeRange m = some (st, et) → timeToMinutes et = some e →
      parse_time_message today m = .ok r →
      r.overtime_hours = max 0 (((e : ℚ) - 16 * 60) / 60)) ∧
    (∀ today, parse_time_message today "worked 10:00 till 17:00".toList =
      .ok { type := .weekday, start_time := "10:00".toList, end_time := "17:00".toList,
            total_hours := 7, paid_hours := 6, overtime_hours := 1,
            total_pay := 381.67, date := today }) := by
  constructor
  · intro today m r st et e hn hw hsearch hte h
    obtain ⟨st2, et2, s2, e2, hsearch2, -, -, -, hte2, -, -, -, -, hr⟩ :=
      parse_ok_inv today m r hn hw h
    rw [hsearch] at hsearch2
    injection hsearch2 with hpair
    cases hpair
    rw [hte] at hte2
    injection hte2 with he2
    subst he2
    subst hr
    dsimp only
    split
    case _ hgt =>
      rw [max_eq_right]
      · push_cast
        ring
      · apply div_nonneg _ (by norm_num)
        exact_mod_cast Int.sub_nonneg.mpr (by omega)
    case _ hle =>
      rw [max_eq_left]
      apply div_nonpos_of_nonpos_of_nonneg _ (by norm_num)
      have : (e : ℚ) ≤ 960 := by exact_mod_cast (by omega : e ≤ 960)
      linarith
  · intro today
    rw [parse_timeRange_eq today _ "10:00".toList "17:00".toList 600 1020
      (by decide) (by decide) (by decide) (by decide) (by decide) (by decide) (by decide)]
    norm_num [DAILY_RATE, OVERTIME_RATE]



/-- C5: when the time-range branch finds no pattern, or a time fails the
24-hour validation, parsing errors, the reply is the format help and no
pending action is stored; the out-of-range example takes this path. -/
theorem C5_parse_error_handling :
    (∀ today m sender store, containsNormalDay m = false → containsWeekendDay m = false →
      (searchTimeRange m = none ∨
        (∃ st et, searchTimeRange m = some (st, et) ∧
          (is_valid_24hour_time st && is_valid_24hour_time et) = false)) →
      (∃ err, parse_time_message today m = .error err) ∧
      handle_time_request today m sender store = ⟨.timeFormatHelp, store, true, false⟩) ∧
    (∀ today sender store,
      handle_time_request today "worked 25:00 till 16:00".toList sender store =
        ⟨.timeFormatHelp, store, true, false⟩) := by
  have main : ∀ today m sender store, containsNormalDay m = false →
      containsWeekendDay m = false →
      (searchTimeRange m = none ∨
        (∃ st et, searchTimeRange m = some (st, et) ∧
          (is_valid_24hour_time st && is_valid_24hour_time et) = false)) →
      (∃ err, parse_time_message today m = .error err) ∧
      handle_time_request today m sender store = ⟨.timeFormatHelp, store, true, false⟩ := by
    intro today m sender store hn hw hbad
    have herr : ∃ err, parse_time_message today m = .error err := by
      rcases hbad with hnone | ⟨st, et, hst, hv⟩
      · refine ⟨"Could not parse time format", ?_⟩
        unfold parse_time_message
        simp [hn, hw, hnone]
      · refine ⟨"Invalid time format", ?_⟩
        unfold parse_time_message
        simp only [hn, hw, Bool.false_eq_true, if_false, hst]
        have hcond : (!is_valid_24hour_time st || !is_valid_24hour_time et) = true := by
          rcases Bool.and_eq_false_iff.mp hv with h | h <;> simp [h]
        rw [if_pos hcond]
    obtain ⟨err, herr⟩ := herr
    refine ⟨⟨err, herr⟩, ?_⟩
    unfold handle_time_request
    rw [herr]
  refine ⟨main, ?_⟩
  intro today sender store
  exact (main today _ sender store (by decide) (by decide)
    (Or.inr ⟨"25:00".toList, "16:00".toList, by decide, by decide⟩)).2

theorem storeGet_erase (k key : String) (s : ConfStore) :
    storeGet (storeErase k s) key = if key = k then none else storeGet s key := by
  induction s with
  | nil => by_cases h : key = k <;> simp [storeErase, storeGet, h]
  | cons hd tl ih =>
    obtain ⟨k2, v⟩ := hd
    by_cases h2 : k2 = k
    · subst h2
      by_cases h3 : key = k2
      · subst h3
        simp [storeErase, storeGet, ih]
      · simp [storeErase, storeGet, ih, h3, show ¬ k2 = key from fun hh => h3 hh.symm]
    · by_cases h4 : k2 = key
      · subst h4
        simp [storeErase, storeGet, h2, show ¬ k2 = k from h2]
      · simp [storeErase, storeGet, h2, h4, ih]

theorem storeGet_set (k key : String) (v : PendingEntry) (s : ConfStore) :
    storeGet (storeSet k v s) key = if key = k then some v else storeGet s key := by
  unfold storeSet
  by_cases h : k = key
  · subst h
    simp [storeGet]
  · have h2 : ¬ key = k := fun hk => h hk.symm
    simp [storeGet, h, h2, storeGet_erase]


/-- Well-formedness of the confirmation store: every pending entry has the
kind time_entry, the only kind the controller ever writes. -/
def StoreWF (store : ConfStore) : Prop :=
  ∀ k p, storeGet store k = some p → p.kind = "time_entry".toList

theorem storeWF_erase (k : String) (store : ConfStore) (h : StoreWF store) :
    StoreWF (storeErase k store) := by
  intro k2 p hk
  rw [storeGet_erase] at hk
  split at hk
  · exact Option.noConfusion hk
  · exact h k2 p hk

theorem storeWF_handle_time_request (today m : List Char) (sender : String)
    (store : ConfStore) (h : StoreWF store) :
    StoreWF (handle_time_request today m sender store).store := by
  unfold handle_time_request
  split
  · exact h
  · intro k p hk
    simp only at hk
    rw [storeGet_set] at hk
    split at hk
    · cases hk
      rfl
    · exact h k p hk

theorem storeWF_handle_confirmation (gw : ShiftRecord → Bool) (sender : String)
    (confirmed : Bool) (store : ConfStore) (h : StoreWF store) :
    StoreWF (handle_confirmation gw sender confirmed store).store := by
  unfold handle_confirmation
  split
  · exact h
  · split
    · exact storeWF_erase _ _ h
    · split
      · dsimp only
        split
        · split
          · exact storeWF_erase _ _ h
          · split
            · exact storeWF_erase _ _ h
            · exact storeWF_erase _ _ h
        · exact storeWF_erase _ _ h
      · exact h

theorem storeWF_handle_admin (m : List Char) (sender : String)
    (store : ConfStore) (h : StoreWF store) :
    StoreWF (handle_admin_command m sender store).store := by
  unfold handle_admin_command
  split
  · exact h
  · exact h
  · split
    · exact h
    · split
      · exact h
      · split
        · exact h
        · split
          · exact h
          · split
            · intro k p hk
              exact Option.noConfusion hk
            · split
              · exact h
              · exact h

/-- C7: an affirmative reply with a pending action always invokes the
persistence gateway and always deletes the pending entry, whether the write
succeeds (category-specific success reply) or fails (failure reply); the
kind hypothesis of the second part is justified by the first part, which
shows the controller only ever holds time_entry pending actions. -/
theorem C7_confirm_always_clears :
    (∀ gw today m sender store, StoreWF store →
      StoreWF (process_message gw today m sender store).store) ∧
    (∀ gw sender store p, storeGet store sender = some p →
      p.kind = "time_entry".toList →
      (handle_confirmation gw sender true store).gatewayCalled = true ∧
      storeGet (handle_confirmation gw sender true store).store sender = none ∧
      (gw p.data = false →
        (handle_confirmation gw sender true store).reply = .logFailed) ∧
      (gw p.data = true →
        ((handle_confirmation gw sender true store).reply =
            .loggedOvertime p.data.overtime_hours ∨
         (handle_confirmation gw sender true store).reply = .loggedWeekend ∨
         (handle_confirmation gw sender true store).reply = .loggedNormal))) := by
  constructor
  · intro gw today m sender store h
    unfold process_message
    split
    · exact h
    · unfold route_message
      split
      · exact storeWF_handle_admin _ _ _ h
      · split
        · exact storeWF_handle_confirmation _ _ _ _ h
        · split
          · exact storeWF_handle_confirmation _ _ _ _ h
          · split
            · exact storeWF_handle_time_request _ _ _ _ h
            · split
              · exact h
              · exact h
  · intro gw sender store p hpend hkind
    have herase : storeGet (storeErase sender store) sender = none := by
      rw [storeGet_erase, if_pos rfl]
    cases hgw : gw p.data <;>
      by_cases hot : p.data.overtime_hours > 0 <;>
      by_cases hwk : p.data.type = ShiftType.weekend <;>
      simp [handle_confirmation, hpend, hkind, hgw, hot, hwk, herase]

/-- C8: a sender outside the allow-list gets the fixed denial reply, the
parser is never invoked, and the store is unchanged, whatever the message. -/
theorem C8_unauthorized_rejected (gw : ShiftRecord → Bool) (today m : List Char)
    (sender : String) (store : ConfStore) (h : is_authorized sender = false) :
    process_message gw today m sender store = ⟨.notAuthorized, store, false, false⟩ := by
  unfold process_message
  rw [h]
  rfl

/-- C9: admin-prefixed text from the standard user is never dispatched to
the admin command handler: when it contains no time keyword and is none of
the confirmation, help or status tokens, the reply is the generic usage
hint and the confirmation store is unchanged. -/
theorem C9_admin_prefix_standard_user (gw : ShiftRecord → Bool)
    (today m : List Char) (store : ConfStore)
    (_hpre : "admin".toList.isPrefixOf (pyStrip (pyLower m)) = true)
    (ht : is_time_message (pyStrip (pyLower m)) = false)
    (h1 : pyStrip (pyLower m) ≠ "yes".toList)
    (h2 : pyStrip (pyLower m) ≠ "y".toList)
    (h3 : pyStrip (pyLower m) ≠ "confirm".toList)
    (h4 : pyStrip (pyLower m) ≠ "ok".toList)
    (h5 : pyStrip (pyLower m) ≠ "no".toList)
    (h6 : pyStrip (pyLower m) ≠ "n".toList)
    (h7 : pyStrip (pyLower m) ≠ "cancel".toList)
    (h8 : pyStrip (pyLower m) ≠ "help".toList)
    (h9 : pyStrip (pyLower m) ≠ "status".toList) :
    process_message gw today m GARY_PHONE store = ⟨.usageHint, store, false, false⟩ := by
  unfold process_message route_message
  have hauth : is_authorized GARY_PHONE = true := by decide
  have hadmin : is_admin GARY_PHONE = false := by decide
  simp only [hauth, Bool.not_true, Bool.false_eq_true, if_false, hadmin,
    Bool.false_and, ht, ne_eq, h1, h2, h3, h4, h5, h6, h7, h8, h9,
    or_self, false_or, if_true]



theorem charOfNat_toNat_small (n : ℕ) (h : n < 123) : (Char.ofNat n).toNat = n := by
  revert h
  revert n
  decide

theorem toNat_pyToLower_of_upper (c : Char) (h1 : 65 ≤ c.toNat) (h2 : c.toNat ≤ 90) :
    (pyToLower c).toNat = c.toNat + 32 := by
  unfold pyToLower
  rw [if_pos (by simp [h1, h2])]
  exact charOfNat_toNat_small _ (by omega)

theorem pyToLower_of_not_upper (c : Char) (h : ¬(65 ≤ c.toNat ∧ c.toNat ≤ 90)) :
    pyToLower c = c := by
  unfold pyToLower
  rw [if_neg]
  simp only [Bool.and_eq_true, decide_eq_true_eq, not_and]
  intro hc1 hc2
  exact h ⟨hc1, hc2⟩

theorem pyToLower_pyToLower (c : Char) : pyToLower (pyToLower c) = pyToLower c := by
  by_cases h : 65 ≤ c.toNat ∧ c.toNat ≤ 90
  · rw [pyToLower_of_not_upper (pyToLower c)
      (by rw [toNat_pyToLower_of_upper c h.1 h.2]; omega)]
  · rw [pyToLower_of_not_upper c h]
    exact pyToLower_of_not_upper c h

theorem pyIsSpace_pyToLower (c : Char) : pyIsSpace (pyToLower c) = pyIsSpace c := by
  by_cases h : 65 ≤ c.toNat ∧ c.toNat ≤ 90
  · have hx := toNat_pyToLower_of_upper c h.1 h.2
    have l : pyIsSpace (pyToLower c) = false := by
      simp only [pyIsSpace, hx, Bool.or_eq_false_iff, decide_eq_false_iff_not]
      omega
    have r : pyIsSpace c = false := by
      simp only [pyIsSpace, Bool.or_eq_false_iff, decide_eq_false_iff_not]
      omega
    rw [l, r]
  · rw [pyToLower_of_not_upper c h]


theorem pyLower_pyLower (l : List Char) : pyLower (pyLower l) = pyLower l := by
  unfold pyLower
  rw [List.map_map]
  exact List.map_congr_left (fun a _ => pyToLower_pyToLower a)

theorem dropWhile_pyLower (l : List Char) :
    (pyLower l).dropWhile pyIsSpace = pyLower (l.dropWhile pyIsSpace) := by
  induction l with
  | nil => rfl
  | cons c t ih =>
    simp only [pyLower, List.map_cons, List.dropWhile_cons, pyIsSpace_pyToLower]
    by_cases h : pyIsSpace c = true
    · rw [if_pos h, if_pos h]
      exact ih
    · rw [if_neg h, if_neg h]
      rfl

theorem rdropWhile_pyLower (l : List Char) :
    (pyLower l).rdropWhile pyIsSpace = pyLower (l.rdropWhile pyIsSpace) := by
  unfold List.rdropWhile
  have h1 : (pyLower l).reverse = pyLower l.reverse := by
    simp [pyLower, List.map_reverse]
  rw [h1, dropWhile_pyLower]
  simp [pyLower, List.map_reverse]

theorem pyStrip_pyLower (l : List Char) :
    pyStrip (pyLower l) = pyLower (pyStrip l) := by
  unfold pyStrip
  rw [dropWhile_pyLower, rdropWhile_pyLower]

theorem head_dropWhile_false (p : Char → Bool) (l : List Char) (a : Char)
    (h : (l.dropWhile p).head? = some a) : p a = false := by
  induction l with
  | nil => exact Option.noConfusion h
  | cons c t ih =>
    rw [List.dropWhile_cons] at h
    split at h
    · exact ih h
    · cases h
      simp_all

theorem dropWhile_eq_self_of_head (p : Char → Bool) (l : List Char)
    (h : ∀ a, l.head? = some a → p a = false) : l.dropWhile p = l := by
  cases l with
  | nil => rfl
  | cons c t =>
    rw [List.dropWhile_cons, if_neg]
    simp [h c rfl]

theorem dropWhile_rdropWhile_dropWhile (l : List Char) :
    ((l.dropWhile pyIsSpace).rdropWhile pyIsSpace).dropWhile pyIsSpace
      = (l.dropWhile pyIsSpace).rdropWhile pyIsSpace := by
  apply dropWhile_eq_self_of_head
  intro a ha
  obtain ⟨t, ht⟩ := List.rdropWhile_prefix (l := l.dropWhile pyIsSpace) pyIsSpace
  cases hy : (l.dropWhile pyIsSpace).rdropWhile pyIsSpace with
  | nil => rw [hy] at ha; exact Option.noConfusion ha
  | cons b y2 =>
    rw [hy] at ha ht
    cases ha
    apply head_dropWhile_false pyIsSpace l a
    rw [← ht]
    rfl

theorem pyStrip_pyStrip (l : List Char) : pyStrip (pyStrip l) = pyStrip l := by
  unfold pyStrip
  rw [dropWhile_rdropWhile_dropWhile, List.rdropWhile_idempotent]

theorem norm_of_lower_strip (m : List Char) :
    pyStrip (pyLower (pyLower (pyStrip m))) = pyStrip (pyLower m) := by
  rw [pyLower_pyLower, ← pyStrip_pyLower, pyStrip_pyStrip]

/-- C10: processing is invariant under pre-normalizing the message by
trim-then-lowercase, because process_message lowercases and strips before
any matching. -/
theorem C10_normalization_invariance (gw : ShiftRecord → Bool) (today m : List Char)
    (sender : String) (store : ConfStore) :
    process_message gw today m sender store =
      process_message gw today (pyLower (pyStrip m)) sender store := by
  unfold process_message
  rw [norm_of_lower_strip]



/-! ### Concrete instances used by the witnesses -/

def wdate : List Char := "2026-10-12".toList

def w900 : ShiftRecord :=
  { type := .weekday, start_time := "9:00".toList, end_time := "18:00".toList,
    total_hours := 9, paid_hours := 8, overtime_hours := 2,
    total_pay := 443.23, date := wdate }

theorem parse_w900 :
    parse_time_message wdate "worked 9:00 till 18:00".toList = .ok w900 := by
  rw [parse_timeRange_eq wdate _ "9:00".toList "18:00".toList 540 1080
    (by decide) (by decide) (by decide) (by decide) (by decide) (by decide) (by decide)]
  norm_num [w900, DAILY_RATE, OVERTIME_RATE]

def wsat : ShiftRecord :=
  { type := .weekend, start_time := "08:00".toList, end_time := "13:00".toList,
    total_hours := 5, paid_hours := 5, overtime_hours := 0,
    total_pay := DAILY_RATE, date := wdate }

theorem parse_wsat :
    parse_time_message wdate "worked 8:00 till 13:00 saturday".toList = .ok wsat := by
  unfold parse_time_message
  rw [if_neg (by decide), if_pos (by decide)]
  rfl

def wpend : PendingEntry :=
  ⟨"time_entry".toList, wsat, "worked 8:00 till 13:00 saturday".toList⟩

def wstore : ConfStore := [(GARY_PHONE, wpend)]

theorem wstore_get : storeGet wstore GARY_PHONE = some wpend := by
  simp [wstore, storeGet]

/-! ### Witnesses -/

theorem C1_witness :
    w900.total_pay = DAILY_RATE + w900.overtime_hours * OVERTIME_RATE :=
  C1_weekday_pay_identity.2.2.1 wdate "worked 9:00 till 18:00".toList w900
    (by decide) (by decide) parse_w900

theorem C2_witness :
    calculate_hours_between "22:00".toList "06:00".toList = some 8 := by
  rw [C2_hours_between "22:00".toList "06:00".toList 22 0 6 0
    (by norm_num) (by norm_num) (by norm_num) (by norm_num) (by decide) (by decide)]
  norm_num

theorem C3_witness :
    0 ≤ wsat.overtime_hours ∧ 0 ≤ wsat.total_hours ∧
      wsat.paid_hours ≤ wsat.total_hours :=
  C3_invariants_amended wdate "worked 8:00 till 13:00 saturday".toList wsat parse_wsat

theorem C4_witness :
    parse_time_message wdate "worked normal day".toList =
      .ok { type := .weekday, start_time := "07:30".toList, end_time := "16:00".toList,
            total_hours := 8.5, paid_hours := 7.5, overtime_hours := 0,
            total_pay := DAILY_RATE, date := wdate } ∧
    parse_time_message wdate "worked 7:30 till 17:00 sunday".toList =
      .ok { type := .weekend, start_time := "08:00".toList, end_time := "13:00".toList,
            total_hours := 5, paid_hours := 5, overtime_hours := 0,
            total_pay := DAILY_RATE, date := wdate } :=
  ⟨C4_branch_priority.1 wdate _ (by decide),
   C4_branch_priority.2 wdate _ (by decide) (by decide)⟩

theorem C5_witness :
    (∃ err, parse_time_message wdate "worked 25:00 till 16:00".toList = .error err) ∧
    handle_time_request wdate "worked 25:00 till 16:00".toList GARY_PHONE [] =
      ⟨.timeFormatHelp, [], true, false⟩ :=
  C5_parse_error_handling.1 wdate _ GARY_PHONE [] (by decide) (by decide)
    (Or.inr ⟨"25:00".toList, "16:00".toList, by decide, by decide⟩)

theorem C6_witness :
    w900.overtime_hours = max 0 (((1080 : ℚ) - 16 * 60) / 60) :=
  C6_overtime_end_only.1 wdate "worked 9:00 till 18:00".toList w900
    "9:00".toList "18:00".toList 1080 (by decide) (by decide) (by decide) (by decide)
    parse_w900

theorem C7_witness :
    (handle_confirmation (fun _ => false) GARY_PHONE true wstore).gatewayCalled = true ∧
    storeGet (handle_confirmation (fun _ => false) GARY_PHONE true wstore).store
      GARY_PHONE = none ∧
    (handle_confirmation (fun _ => false) GARY_PHONE true wstore).reply = .logFailed := by
  obtain ⟨h1, h2, h3, -⟩ :=
    C7_confirm_always_clears.2 (fun _ => false) GARY_PHONE wstore wpend wstore_get rfl
  exact ⟨h1, h2, h3 rfl⟩

theorem C8_witness :
    process_message (fun _ => true) wdate "wipe everything".toList
      "+440000000000" wstore = ⟨.notAuthorized, wstore, false, false⟩ :=
  C8_unauthorized_rejected (fun _ => true) wdate _ _ wstore (by decide)

theorem C9_witness :
    process_message (fun _ => true) wdate "admin clear".toList GARY_PHONE wstore =
      ⟨.usageHint, wstore, false, false⟩ :=
  C9_admin_prefix_standard_user (fun _ => true) wdate "admin clear".toList wstore (by decide) (by decide)
    (by decide) (by decide) (by decide) (by decide) (by decide) (by decide) (by decide)
    (by decide) (by decide)


end GaryBot
